import Mathlib

/-!
Verification of `create-ebook.py` (ginqi7/create-ebook) against its
natural-language specification.

The program is a Markdown → EPUB converter.  Its pure/stateful core is
embedded shallowly here:

* Python `str` values are Lean `String`s; in this toolchain a `String` is a
  structure holding `data : List Char`, and every Python string operation
  used by the program (`strip`, `split`, slicing, `lower`, `title`,
  comparison, …) is re-implemented below directly on the character list,
  following Python's documented semantics for the ASCII inputs involved.
* Exceptions (`IOError`, `ValueError`, `NameError`, `IndexError`) are
  modelled with `Option`/`Except`; the program's `try/except` blocks become
  `match`es on those.
* External collaborators (filesystem, the `markdown` converter, the
  BeautifulSoup string↔tree parser, the `ebooklib` package writer) are
  modelled at their interfaces: their outputs are inputs of the embedded
  functions, exactly as the specification treats them ("capabilities").
* The mutable `MarkdownToEPUB` object becomes an explicit `ConverterState`
  threaded through the operations.
-/

namespace CreateEbook

/-! ### Python string primitives -/

/-- The characters Python's `str.strip()` removes (`str.isspace` for the
ASCII range). -/
def isPySpace (c : Char) : Bool :=
  c = ' ' || c = '\t' || c = '\n' || c = '\r' || c = '\x0b' || c = '\x0c'

/-- `str.strip()` on a character list: whitespace dropped from both ends. -/
def pyStripList (l : List Char) : List Char :=
  ((l.dropWhile isPySpace).reverse.dropWhile isPySpace).reverse

/-- Python `s.strip()`. -/
def pyStrip (s : String) : String := ⟨pyStripList s.data⟩

/-- Python `s.split(sep)` for a one-character separator: split at every
occurrence, empty fields kept, and at least one field always produced. -/
def pySplitChar (sep : Char) : List Char → List (List Char)
  | [] => [[]]
  | c :: cs =>
    if c = sep then [] :: pySplitChar sep cs
    else
      match pySplitChar sep cs with
      | [] => [[c]]
      | h :: t => (c :: h) :: t

/-- `md_content.split("\n")` as a list of strings. -/
def pyLines (s : String) : List String := (pySplitChar '\n' s.data).map String.mk

/-- Python string comparison (`<`): lexicographic on code points. -/
def lexLt : List Char → List Char → Bool
  | [], [] => false
  | [], _ :: _ => true
  | _ :: _, [] => false
  | a :: as, b :: bs =>
    if a.toNat < b.toNat then true
    else if b.toNat < a.toNat then false
    else lexLt as bs

/-- Python `list.index(x)`: position of the first element equal to `x`;
`none` models the `ValueError` raised when `x` does not occur. -/
def pyIndex (x : String) : List String → Option Nat
  | [] => none
  | l :: ls => if l = x then some 0 else (pyIndex x ls).map (· + 1)

/-- Python slicing `s[n:]`. -/
def pySliceFrom (s : String) (n : Nat) : String := ⟨s.data.drop n⟩

/-- Python `s.lower()` (ASCII). -/
def pyLower (s : String) : String := ⟨s.data.map Char.toLower⟩

/-- Engine of Python `str.title()`: the flag records whether the previous
character was alphabetic (cased), so each alphabetic run starts upper-cased
and continues lower-cased. -/
def pyTitleAux : Bool → List Char → List Char
  | _, [] => []
  | prev, c :: cs =>
    if c.isAlpha then
      (if prev then c.toLower else c.toUpper) :: pyTitleAux true cs
    else c :: pyTitleAux false cs

/-- The final component of a path string (text after the last `/`). -/
def basenameList (l : List Char) : List Char :=
  (l.reverse.takeWhile (fun c => c != '/')).reverse

/-- `Path(p).name`. -/
def pyName (p : String) : String := ⟨basenameList p.data⟩

/-- Position of the last occurrence of `c` (Python `str.rfind`,
as an `Option`). -/
def lastIndexOf (c : Char) : List Char → Option Nat
  | [] => none
  | x :: xs =>
    match lastIndexOf c xs with
    | some i => some (i + 1)
    | none => if x == c then some 0 else none

/-- `PurePath.suffix`: the extension (with dot) of the final component;
empty when the last dot is leading, trailing or absent. -/
def pySuffix (p : String) : String :=
  let name := basenameList p.data
  match lastIndexOf '.' name with
  | some i => if 0 < i ∧ i < name.length - 1 then ⟨name.drop i⟩ else ""
  | none => ""

/-- `Path(p).stem`: the final component with its suffix removed. -/
def pyStem (p : String) : String :=
  let name := basenameList p.data
  match lastIndexOf '.' name with
  | some i => if 0 < i ∧ i < name.length - 1 then ⟨name.take i⟩ else ⟨name⟩
  | none => ⟨name⟩

/-! ### `_natural_sort_key` (component "OrderingKey", create-ebook.py:407-409)

`re.split(r"(\d+)", text)` cuts the text around every maximal digit run and
keeps the runs; the list comprehension turns each digit field into its
integer value and every other field into its lower-cased text. -/

/-- One token of the sort key: Python produces a heterogeneous `int`/`str`
list. -/
inductive PyTok where
  | num (n : Nat) : PyTok
  | str (s : String) : PyTok
deriving DecidableEq

/-- Maximal runs of the input, each tagged with whether it is a digit run
(`groupRuns` never produces two adjacent runs with the same tag, nor an
empty run). -/
def groupRuns : List Char → List (Bool × List Char)
  | [] => []
  | c :: cs =>
    match groupRuns cs with
    | [] => [(c.isDigit, [c])]
    | (b, run) :: rest =>
      if c.isDigit = b then (b, c :: run) :: rest
      else (c.isDigit, [c]) :: (b, run) :: rest

/-- The fields of `re.split(r"(\d+)", text)` from the tagged runs: a
(possibly empty) non-digit field before a leading digit run and after a
trailing one, none between a non-digit run and the digit run it abuts. -/
def fieldsOfRuns : List (Bool × List Char) → List (List Char)
  | [] => [[]]
  | (true, r) :: rest => [] :: r :: fieldsOfRuns rest
  | (false, r) :: (true, d) :: rest => r :: d :: fieldsOfRuns rest
  | [(false, r)] => [r]
  | (false, r) :: (false, d) :: rest => r :: fieldsOfRuns ((false, d) :: rest)

/-- `int(field)` for a decimal digit field. -/
def digitsVal (l : List Char) : Nat := l.foldl (fun a c => a * 10 + (c.toNat - 48)) 0

/-- `_natural_sort_key`:
`[int(c) if c.isdigit() else c.lower() for c in re.split(r"(\d+)", text)]`
(`"".isdigit()` is `False`, so empty fields become empty strings). -/
def natural_sort_key (text : String) : List PyTok :=
  (fieldsOfRuns (groupRuns text.data)).map fun f =>
    if !f.isEmpty && f.all Char.isDigit then PyTok.num (digitsVal f)
    else PyTok.str ⟨f.map Char.toLower⟩

/-- Python `==` on a token pair (`int == str` is `False`, no exception). -/
def pyTokEq : PyTok → PyTok → Bool
  | .num a, .num b => a == b
  | .str a, .str b => a == b
  | _, _ => false

/-- Python `<` on a token pair; `none` models the `TypeError` an
`int < str` comparison raises. -/
def pyTokLt : PyTok → PyTok → Option Bool
  | .num a, .num b => some (decide (a < b))
  | .str a, .str b => some (lexLt a.data b.data)
  | _, _ => none

/-- Python `<` on token lists: elementwise, the first non-equal pair
decides; a strict prefix compares smaller. -/
def pyListLt : List PyTok → List PyTok → Option Bool
  | [], [] => some false
  | [], _ :: _ => some true
  | _ :: _, [] => some false
  | a :: as, b :: bs => if pyTokEq a b then pyListLt as bs else pyTokLt a b

theorem pyTokEq_refl (a : PyTok) : pyTokEq a a = true := by
  cases a <;> simp [pyTokEq]

/-! ### Order facts about `lexLt` (Python string `<`) -/

theorem lexLt_irrefl (a : List Char) : lexLt a a = false := by
  induction a with
  | nil => rfl
  | cons c cs ih => simp [lexLt, ih]

theorem lexLt_asymm {a b : List Char} (h : lexLt a b = true) : lexLt b a = false := by
  induction a generalizing b with
  | nil =>
    cases b with
    | nil => simp [lexLt] at h
    | cons y ys => simp [lexLt]
  | cons x xs ih =>
    cases b with
    | nil => simp [lexLt] at h
    | cons y ys =>
      by_cases hxy : x.toNat < y.toNat
      · simp [lexLt, hxy, Nat.lt_asymm hxy]
      · by_cases hyx : y.toNat < x.toNat
        · simp [lexLt, hxy, hyx] at h
        · simp only [lexLt, hxy, hyx, if_false] at h
          simp [lexLt, hxy, hyx, ih h]

theorem lexLt_trans {a b c : List Char} (hab : lexLt a b = true)
    (hbc : lexLt b c = true) : lexLt a c = true := by
  induction a generalizing b c with
  | nil =>
    cases b with
    | nil => simp [lexLt] at hab
    | cons y ys =>
      cases c with
      | nil => simp [lexLt] at hbc
      | cons z zs => simp [lexLt]
  | cons x xs ih =>
    cases b with
    | nil => simp [lexLt] at hab
    | cons y ys =>
      cases c with
      | nil => simp [lexLt] at hbc
      | cons z zs =>
        simp only [lexLt] at hab hbc ⊢
        by_cases hxy : x.toNat < y.toNat <;> by_cases hyz : y.toNat < z.toNat
        · have : x.toNat < z.toNat := Nat.lt_trans hxy hyz
          simp [this]
        · by_cases hzy : z.toNat < y.toNat
          · simp [hyz, hzy] at hbc
          · have : x.toNat < z.toNat := by omega
            simp [this]
        · by_cases hyx : y.toNat < x.toNat
          · simp [hxy, hyx] at hab
          · have : x.toNat < z.toNat := by omega
            simp [this]
        · by_cases hyx : y.toNat < x.toNat
          · simp [hxy, hyx] at hab
          · by_cases hzy : z.toNat < y.toNat
            · simp [hyz, hzy] at hbc
            · have hxz : ¬ x.toNat < z.toNat := by omega
              have hzx : ¬ z.toNat < x.toNat := by omega
              simp only [hxy, hyx, if_false, if_neg] at hab
              simp only [hyz, hzy, if_false, if_neg] at hbc
              simp [hxz, hzx, ih hab hbc]

theorem lexLt_eq_of_not {a b : List Char} (hab : lexLt a b = false)
    (hba : lexLt b a = false) : a = b := by
  induction a generalizing b with
  | nil =>
    cases b with
    | nil => rfl
    | cons y ys => simp [lexLt] at hab
  | cons x xs ih =>
    cases b with
    | nil => simp [lexLt] at hba
    | cons y ys =>
      by_cases hxy : x.toNat < y.toNat
      · simp [lexLt, hxy] at hab
      · by_cases hyx : y.toNat < x.toNat
        · simp [lexLt, hyx] at hba
        · simp only [lexLt, hxy, hyx, if_false, if_neg] at hab hba
          have h3 : x.toNat = y.toNat := by omega
          have hc : x = y := by
            calc x = Char.ofNat x.toNat := (Char.ofNat_toNat x).symm
            _ = Char.ofNat y.toNat := by rw [h3]
            _ = y := Char.ofNat_toNat y
          rw [hc, ih hab hba]

/-- C5.  For every pair of filenames whose `_natural_sort_key` token
sequences agree except at a single position holding numeric tokens, the name
carrying the smaller integer compares strictly smaller under Python's list
comparison of the keys — so it sorts first, regardless of digit count. -/
theorem natural_sort_key_numeric_order (s t : String) (pre suf : List PyTok)
    (m n : Nat)
    (hs : natural_sort_key s = pre ++ PyTok.num m :: suf)
    (ht : natural_sort_key t = pre ++ PyTok.num n :: suf)
    (hmn : m < n) :
    pyListLt (natural_sort_key s) (natural_sort_key t) = some true := by
  rw [hs, ht]
  clear hs ht
  induction pre with
  | nil =>
    have hne : (m == n) = false := by simp [Nat.ne_of_lt hmn]
    simp [pyListLt, pyTokEq, hne, pyTokLt, hmn]
  | cons a pre ih =>
    simp [pyListLt, pyTokEq_refl a, ih]

/-- Witness for C5 at the spec's own example: `"ch2.md"` sorts before
`"ch10.md"`. -/
theorem natural_sort_key_numeric_order_witness :
    pyListLt (natural_sort_key "ch2.md") (natural_sort_key "ch10.md") =
      some true :=
  natural_sort_key_numeric_order "ch2.md" "ch10.md"
    [PyTok.str "ch"] [PyTok.str ".md"] 2 10 (by decide) (by decide)
    (by decide)

/-! ### `_extract_title` (component "TitleResolver", create-ebook.py:248-281) -/

/-- `line.startswith("# ")`. -/
def isH1Line : List Char → Bool
  | '#' :: ' ' :: _ => true
  | _ => false

/-- The loop `for i, line in enumerate(lines[1:], 1): if line.strip() ==
"---": yaml_end = i; break` — the index of the first closing front-matter
fence after line 0 (`yaml_end` stays `-1`, here `none`, when no such line
exists). -/
def yamlEndAux : Nat → List String → Option Nat
  | _, [] => none
  | i, l :: ls => if pyStrip l = "---" then some i else yamlEndAux (i + 1) ls

/-- `yaml_end` for the whole line list. -/
def yamlEnd (lines : List String) : Option Nat := yamlEndAux 1 (lines.drop 1)

/-- The front-matter branch of `_extract_title`.  When the document starts
with a `---` line and a closing `---` line follows, the source calls
`yaml.safe_load(yaml_content)` — but the module `yaml` is never imported
anywhere in `create-ebook.py`, so that call raises `NameError`, which the
bare `except: pass` swallows.  The branch therefore never yields a title
and control always falls through to the heading scan. -/
def frontMatterTitle (lines : List String) : Option String :=
  match lines with
  | [] => none
  | l0 :: _ =>
    if pyStrip l0 = "---" then
      match yamlEnd lines with
      | some _ => none  -- yaml.safe_load raises NameError; `except: pass`
      | none => none
    else none

/-- The heading scan of `_extract_title`.  `lines` is the complete line
list — the source consults it through `lines.index(line)` after rebinding
`line` to its stripped form — and `rest` the lines still to visit.
`Except.error ()` models the `ValueError` that `lines.index` raises when
the stripped line does not occur verbatim in `lines`; `.ok none` means the
scan fell through without finding a heading. -/
def scanHeading (lines : List String) : List String → Except Unit (Option String)
  | [] => .ok none
  | l :: rest =>
    let line := pyStrip l
    if isH1Line line.data then .ok (some (pyStrip (pySliceFrom line 2)))
    else if line ≠ "" then
      match pyIndex line lines with
      | none => .error ()  -- ValueError from lines.index(line)
      | some i =>
        if i + 1 < lines.length then
          let next_line := pyStrip (lines.getD (i + 1) "")
          if next_line ≠ "" ∧ next_line.data.all (· == '=') then .ok (some line)
          else scanHeading lines rest
        else scanHeading lines rest
    else scanHeading lines rest

/-- `str.title()` of the stem after `_`/`-` are replaced by spaces:
`md_path.stem.replace("_", " ").replace("-", " ").title()`. -/
def fallbackTitle (stem : String) : String :=
  ⟨pyTitleAux false (stem.data.map fun c => if c = '_' ∨ c = '-' then ' ' else c)⟩

/-- `_extract_title`: the front-matter block (dead — see
`frontMatterTitle`), then the heading scan, then the filename fallback.
`stem` is `md_path.stem`; `Except.error ()` is the `ValueError` the scan
can raise, which propagates out of `_extract_title`. -/
def extract_title (md_content : String) (stem : String) : Except Unit String :=
  let lines := pyLines md_content
  match frontMatterTitle lines with
  | some t => .ok t
  | none =>
    match scanHeading lines lines with
    | .error e => .error e
    | .ok (some t) => .ok t
    | .ok none => .ok (fallbackTitle stem)

/-- C2.  The spec's own example `---\ntitle: Foo\n---\n# Bar` does **not**
resolve to the front-matter title `"Foo"`: `yaml.safe_load` raises
`NameError` (the `yaml` module is never imported), the bare `except`
swallows it, and the heading scan returns `"Bar"` instead. -/
theorem extract_title_frontmatter_dead :
    extract_title "---\ntitle: Foo\n---\n# Bar" "doc" = Except.ok "Bar" := rfl

/-- C4.  A setext level-1 heading whose text line carries surrounding
whitespace defeats the scan: for `" Hello \n====="` the source evaluates
`lines.index("Hello")` — the stripped line — against the unstripped line
list, and the `ValueError` escapes `_extract_title` instead of the heading
`"Hello"` being returned. -/
theorem extract_title_setext_raises :
    extract_title " Hello \n=====" "x" = Except.error () := rfl

/-! ### `_create_xhtml_content` (component "ContentNormalizer",
create-ebook.py:283-295)

`BeautifulSoup(html_content, "html.parser")` hands the function a parsed
node tree; `soup.find("h1")` is a recursive depth-first (document-order)
search and `decompose()` deletes the found element together with everything
it contains; `str(soup)` maps the tree back to markup.  The string↔tree
parser/serializer pair is the external library, so the embedding operates
directly on the parsed forest; note that `html.parser` performs no implied
end-tag handling, so nested `<h1>` elements parse as written. -/

/-- One node of the parsed HTML tree. -/
inductive HNode where
  | text (s : String) : HNode
  | elem (tag : String) (children : List HNode) : HNode

/-- Would `soup.find("h1")` succeed on this forest? -/
def hasH1 : List HNode → Bool
  | [] => false
  | .text _ :: rest => hasH1 rest
  | .elem t cs :: rest => t = "h1" || hasH1 cs || hasH1 rest

/-- Number of `h1` elements anywhere in the forest. -/
def countH1 : List HNode → Nat
  | [] => 0
  | .text _ :: rest => countH1 rest
  | .elem t cs :: rest => (if t = "h1" then 1 else 0) + countH1 cs + countH1 rest

/-- `soup.find("h1")` followed by `first_h1.decompose()`: the first `h1` in
document order is deleted with its whole subtree; the boolean reports
whether one was found. -/
def removeFirstH1 : List HNode → List HNode × Bool
  | [] => ([], false)
  | .text s :: rest =>
    let (r, b) := removeFirstH1 rest
    (.text s :: r, b)
  | .elem t cs :: rest =>
    if t = "h1" then (rest, true)
    else
      let (cs', b) := removeFirstH1 cs
      if b then (.elem t cs' :: rest, true)
      else
        let (r, b') := removeFirstH1 rest
        (.elem t cs :: r, b')

/-- `_create_xhtml_content` on the parsed forest: remove the first `h1`
element if any, return the rest unchanged. -/
def create_xhtml_content (soup : List HNode) : List HNode :=
  (removeFirstH1 soup).1

theorem removeFirstH1_of_no_h1 :
    ∀ f : List HNode, hasH1 f = false → removeFirstH1 f = (f, false) := by
  intro f
  induction f using removeFirstH1.induct with
  | case1 => intro _; simp [removeFirstH1]
  | case2 s rest r b hrec ih =>
    intro h
    simp only [hasH1] at h
    simp [removeFirstH1, ih h]
  | case3 cs rest =>
    intro h
    simp [hasH1] at h
  | case4 t cs rest ht r hrec ih =>
    intro h
    simp only [hasH1, Bool.or_eq_false_iff, decide_eq_false_iff_not] at h
    rw [ih h.1.2] at hrec
    simp at hrec
  | case5 t cs rest ht r b hcs hb r' b' hrest ihcs ihrest =>
    intro h
    simp only [hasH1, Bool.or_eq_false_iff, decide_eq_false_iff_not] at h
    simp [removeFirstH1, ht, ihcs h.1.2, ihrest h.2]

theorem removeFirstH1_append_h1 (cs b : List HNode) :
    ∀ a : List HNode, hasH1 a = false →
      removeFirstH1 (a ++ HNode.elem "h1" cs :: b) = (a ++ b, true) := by
  intro a
  induction a with
  | nil => intro _; simp [removeFirstH1]
  | cons n a ih =>
    intro h
    cases n with
    | text s =>
      simp only [hasH1] at h
      simp [removeFirstH1, ih h]
    | elem t cs' =>
      simp only [hasH1, Bool.or_eq_false_iff, decide_eq_false_iff_not] at h
      simp [removeFirstH1, h.1.1, removeFirstH1_of_no_h1 cs' h.1.2, ih h.2]

/-- A one-hole context over a forest: the position of one node, with
everything to its left (at every nesting level) and everything to its
right recorded around it. -/
inductive Ctx where
  | here (pre post : List HNode) : Ctx
  | inside (pre : List HNode) (tag : String) (c : Ctx) (post : List HNode) : Ctx

/-- Plug a node into the context's hole. -/
def fillCtx : Ctx → HNode → List HNode
  | .here pre post, n => pre ++ n :: post
  | .inside pre tag c post, n => pre ++ HNode.elem tag (fillCtx c n) :: post

/-- Delete the hole — exactly what `decompose()` leaves behind. -/
def removeCtx : Ctx → List HNode
  | .here pre post => pre ++ post
  | .inside pre tag c post => pre ++ HNode.elem tag (removeCtx c) :: post

/-- The hole marks the *first* `h1` in document order: nothing before it
at any nesting level is or contains an `h1`, and no enclosing element is
an `h1` itself. -/
def CtxOk : Ctx → Prop
  | .here pre _ => hasH1 pre = false
  | .inside pre tag c _ => hasH1 pre = false ∧ tag ≠ "h1" ∧ CtxOk c

/-- Prefix one node at the context's top level. -/
def consCtx (n : HNode) : Ctx → Ctx
  | .here pre post => .here (n :: pre) post
  | .inside pre tag c post => .inside (n :: pre) tag c post

theorem fillCtx_consCtx (n : HNode) (C : Ctx) (x : HNode) :
    fillCtx (consCtx n C) x = n :: fillCtx C x := by
  cases C <;> simp [consCtx, fillCtx]

theorem hasH1_cons (n : HNode) (l : List HNode) :
    hasH1 (n :: l) = (hasH1 [n] || hasH1 l) := by
  cases n <;> simp [hasH1, Bool.or_assoc]

theorem ctxOk_consCtx (n : HNode) (C : Ctx) (hn : hasH1 [n] = false)
    (h : CtxOk C) : CtxOk (consCtx n C) := by
  cases C with
  | here pre post =>
    simp only [CtxOk] at h ⊢
    simp [consCtx, CtxOk, hasH1_cons, hn, h]
  | inside pre tag c post =>
    obtain ⟨hpre, htag, hc⟩ := h
    exact ⟨by simp [hasH1_cons, hn, hpre], htag, hc⟩

theorem removeFirstH1_append_of_no_h1 :
    ∀ pre : List HNode, hasH1 pre = false → ∀ rest : List HNode,
      removeFirstH1 (pre ++ rest) =
        (pre ++ (removeFirstH1 rest).1, (removeFirstH1 rest).2) := by
  intro pre
  induction pre with
  | nil => intro _ rest; simp
  | cons n pre ih =>
    intro h rest
    cases n with
    | text s =>
      simp only [hasH1] at h
      simp [removeFirstH1, ih h rest]
    | elem t cs =>
      simp only [hasH1, Bool.or_eq_false_iff, decide_eq_false_iff_not] at h
      simp [removeFirstH1, h.1.1, removeFirstH1_of_no_h1 cs h.1.2, ih h.2 rest]

theorem removeFirstH1_fillCtx (cs : List HNode) :
    ∀ C : Ctx, CtxOk C →
      removeFirstH1 (fillCtx C (HNode.elem "h1" cs)) = (removeCtx C, true) := by
  intro C
  induction C with
  | here pre post =>
    intro h
    exact removeFirstH1_append_h1 cs post pre h
  | inside pre tag c post ih =>
    intro h
    obtain ⟨hpre, htag, hc⟩ := h
    rw [fillCtx, removeFirstH1_append_of_no_h1 pre hpre]
    simp [removeFirstH1, removeCtx, htag, ih hc]

theorem exists_first_h1_ctx :
    ∀ f : List HNode, hasH1 f = true →
      ∃ (C : Ctx) (cs : List HNode), CtxOk C ∧
        f = fillCtx C (HNode.elem "h1" cs) := by
  intro f
  induction f using hasH1.induct with
  | case1 =>
    intro h
    simp [hasH1] at h
  | case2 s rest ih =>
    intro h
    simp only [hasH1] at h
    obtain ⟨C, cs, hok, heq⟩ := ih h
    exact ⟨consCtx (HNode.text s) C, cs,
      ctxOk_consCtx _ _ (by simp [hasH1]) hok,
      by rw [fillCtx_consCtx, ← heq]⟩
  | case3 t cs rest ihcs ihrest =>
    intro h
    by_cases ht : t = "h1"
    · subst ht
      exact ⟨Ctx.here [] rest, cs, by simp [CtxOk, hasH1], by simp [fillCtx]⟩
    · by_cases hcs : hasH1 cs = true
      · obtain ⟨C, cs', hok, heq⟩ := ihcs hcs
        refine ⟨Ctx.inside [] t C rest, cs', ⟨by simp [hasH1], ht, hok⟩, ?_⟩
        simp [fillCtx, ← heq]
      · have hrest : hasH1 rest = true := by
          simp only [hasH1, ht, hcs] at h
          simpa using h
        obtain ⟨C, cs', hok, heq⟩ := ihrest hrest
        exact ⟨consCtx (HNode.elem t cs) C, cs',
          ctxOk_consCtx _ _ (by simp [hasH1, ht, hcs]) hok,
          by rw [fillCtx_consCtx, ← heq]⟩

/-- C6 (amended).  `_create_xhtml_content` leaves a forest without `h1`
elements unchanged; and the first `h1` element — at any nesting depth —
is removed *together with its entire contents*, everything else (in
particular every `h1` not contained in it) kept verbatim: for every
decomposition of the document as a one-hole context holding the first
`h1` (no `h1` before the hole at any level, no enclosing `h1`), the
result is exactly the context with its hole deleted; and every document
containing an `h1` admits such a decomposition. -/
theorem create_xhtml_content_first_h1 :
    (∀ f : List HNode, hasH1 f = false → create_xhtml_content f = f) ∧
    (∀ (C : Ctx) (cs : List HNode), CtxOk C →
      create_xhtml_content (fillCtx C (HNode.elem "h1" cs)) = removeCtx C) ∧
    (∀ f : List HNode, hasH1 f = true →
      ∃ (C : Ctx) (cs : List HNode), CtxOk C ∧
        f = fillCtx C (HNode.elem "h1" cs)) := by
  refine ⟨?_, ?_, exists_first_h1_ctx⟩
  · intro f h
    simp [create_xhtml_content, removeFirstH1_of_no_h1 f h]
  · intro C cs h
    simp [create_xhtml_content, removeFirstH1_fillCtx cs C h]

/-- Witness for C6 (amended): a first `h1` nested inside a blockquote
(markdown `> # Title`) is removed, the blockquote and everything after
it — including a later sibling `h1` — surviving verbatim. -/
theorem create_xhtml_content_first_h1_witness :
    create_xhtml_content
        [HNode.elem "blockquote" [HNode.text "q", HNode.elem "h1" [HNode.text "Title"]],
         HNode.elem "p" [HNode.text "Body"], HNode.elem "h1" [HNode.text "Later"]] =
      [HNode.elem "blockquote" [HNode.text "q"],
       HNode.elem "p" [HNode.text "Body"], HNode.elem "h1" [HNode.text "Later"]] :=
  create_xhtml_content_first_h1.2.1
    (Ctx.inside [] "blockquote" (Ctx.here [HNode.text "q"] [])
      [HNode.elem "p" [HNode.text "Body"], HNode.elem "h1" [HNode.text "Later"]])
    [HNode.text "Title"]
    (by
      refine ⟨?_, ?_, ?_⟩
      · exact hasH1.eq_1
      · decide
      · show hasH1 [HNode.text "q"] = false
        rw [hasH1.eq_2]
        exact hasH1.eq_1)

/-- Counterexample to C6 as stated: in `<h1>A<h1>B</h1></h1><p>C</p>` (the
`html.parser` builder nests the second `h1` inside the first), the second —
subsequent — `h1` element is *not* preserved: `decompose()` deletes the
first `h1`'s whole subtree, leaving no `h1` at all. -/
theorem create_xhtml_content_nested_h1_counterexample :
    countH1 [HNode.elem "h1" [HNode.text "A", HNode.elem "h1" [HNode.text "B"]],
             HNode.elem "p" [HNode.text "C"]] = 2 ∧
    create_xhtml_content
        [HNode.elem "h1" [HNode.text "A", HNode.elem "h1" [HNode.text "B"]],
         HNode.elem "p" [HNode.text "C"]] = [HNode.elem "p" [HNode.text "C"]] ∧
    countH1 (create_xhtml_content
        [HNode.elem "h1" [HNode.text "A", HNode.elem "h1" [HNode.text "B"]],
         HNode.elem "p" [HNode.text "C"]]) = 0 := by
  refine ⟨by simp [countH1], ?_, ?_⟩ <;>
    simp [create_xhtml_content, removeFirstH1, countH1]

/-! ### Decimal rendering (Python f-string formatting of a `Nat`) -/

/-- Decimal digits of `n`, most significant first: the characters Python's
f-string `f"{n}"` produces for a nonnegative integer. -/
def decDigits (n : Nat) : List Char :=
  if h : n < 10 then [Char.ofNat (48 + n)]
  else decDigits (n / 10) ++ [Char.ofNat (48 + n % 10)]
termination_by n
decreasing_by exact Nat.div_lt_self (by omega) (by omega)

/-- `f"{n}"`. -/
def decRepr (n : Nat) : String := ⟨decDigits n⟩

/-- Left inverse of `decDigits`: decimal value of a digit string. -/
def parseDecDigits (l : List Char) : Nat :=
  l.foldl (fun a c => a * 10 + (c.toNat - 48)) 0

theorem parseDecDigits_append (l : List Char) (c : Char) :
    parseDecDigits (l ++ [c]) = parseDecDigits l * 10 + (c.toNat - 48) := by
  simp [parseDecDigits, List.foldl_append]

theorem toNat_ofNat_digit (d : Nat) (hd : d < 10) :
    (Char.ofNat (48 + d)).toNat - 48 = d := by
  interval_cases d <;> decide

theorem parseDecDigits_decDigits (n : Nat) :
    parseDecDigits (decDigits n) = n := by
  induction n using Nat.strong_induction_on with
  | _ n ih =>
    rw [decDigits]
    split
    · next h =>
      simpa [parseDecDigits] using toNat_ofNat_digit n h
    · next h =>
      rw [parseDecDigits_append, ih (n / 10) (Nat.div_lt_self (by omega) (by omega)),
        toNat_ofNat_digit (n % 10) (Nat.mod_lt n (by omega))]
      omega

theorem decRepr_inj {m n : Nat} (h : decRepr m = decRepr n) : m = n := by
  have hd : decDigits m = decDigits n := congrArg String.data h
  calc m = parseDecDigits (decDigits m) := (parseDecDigits_decDigits m).symm
  _ = parseDecDigits (decDigits n) := by rw [hd]
  _ = n := parseDecDigits_decDigits n

theorem string_append_right_inj {a b c : String} (h : a ++ b = a ++ c) : b = c := by
  have hd : a.data ++ b.data = a.data ++ c.data := by
    have h1 := congrArg String.data h
    simpa [String.data_append] using h1
  cases b
  cases c
  exact congrArg String.mk (List.append_cancel_left hd)

/-! ### The converter state (class `MarkdownToEPUB`)

`self.book` (an `ebooklib` `EpubBook`), `self.chapters` and `self.spine`
become one explicit `ConverterState`.  The `ebooklib` entities are modelled
at the constructor-argument level: an `EpubHtml` chapter records exactly
what `add_markdown_file` passes and assigns, with the spec's sequential
chapter identifier (`chapter_<n>`) recorded in `chapterId`; the library's
on-disk serialization is the external package-writer capability. -/

/-- One chapter: `epub.EpubHtml(title=…, file_name=…, lang=…)` plus the
normalized body assigned to `.content`.  `chapterId` is the sequential
identifier the converter computes and derives the file name from (the
spec's Chapter identifier); `itemId` is the object's `.id` attribute — the
constructor receives **no** `uid`, so it is the id the epub library
assigns when `book.add_item(chapter)` runs (see `ebooklib_html_id`). -/
structure Chapter where
  chapterId : String
  itemId : String
  title : String
  fileName : String
  lang : String
  content : List HNode

/-- An entry of `self.spine`: the fixed `"nav"` marker or a chapter. -/
inductive SpineEntry where
  | nav : SpineEntry
  | chapter (c : Chapter) : SpineEntry

/-- `epub.Link(href, title, uid)` — one table-of-contents entry. -/
structure TocLink where
  href : String
  title : String
  uid : String

/-- An item registered on the book via `book.add_item`. -/
inductive BookItem where
  | html (c : Chapter) : BookItem
  | image (uid fileName mediaType : String) (content : List Nat) : BookItem
  | css (uid fileName mediaType : String) (content : String) : BookItem
  | ncx : BookItem
  | navDoc : BookItem

/-- The `EpubBook` aggregate: metadata set at construction, the growing
item registry, and the `toc`/`spine` attributes `generate_epub` assigns
(`spineAttr` is `none` until then), plus the optional cover. -/
structure EpubBook where
  identifier : String
  title : String
  language : String
  author : String
  items : List BookItem
  toc : List (TocLink × List TocLink)
  spineAttr : Option (List SpineEntry)
  cover : Option (String × List Nat)

/-- `self.book`, `self.chapters`, `self.spine` of a `MarkdownToEPUB`
instance. -/
structure ConverterState where
  book : EpubBook
  chapters : List Chapter
  spine : List SpineEntry

/-- `MarkdownToEPUB.__init__`: fresh book with the given metadata (the
`uuid4` identifier is an input — external randomness), no chapters, spine
`["nav"]`. -/
def initState (identifier title author language : String) : ConverterState :=
  { book := { identifier := identifier, title := title, language := language,
              author := author, items := [], toc := [], spineAttr := none,
              cover := none }
    chapters := []
    spine := [SpineEntry.nav] }

/-! ### `add_markdown_file` (component "ChapterAssembler",
create-ebook.py:55-99) -/

/-- The per-file environment `add_markdown_file` runs in: `readResult` is
the outcome of `open(md_path).read()` (`none` models the `IOError` the
`try` block catches), and `htmlOut` is the external Markdown converter's
output `self.md.convert(md_content)` as BeautifulSoup parses it — the
converter and the parser are external capabilities.  `name`/`stem` are
`md_path.name`/`md_path.stem`. -/
structure FileInput where
  name : String
  stem : String
  readResult : Option String
  htmlOut : List HNode

/-- Modelled from the epub library's `EpubBook.add_item` (an external
capability, not repository code): an `EpubHtml` added without a uid — as
every chapter here is, the constructor call at create-ebook.py:76 passing
none — is assigned `'chapter_%d' % self._id_html`, the book's html counter,
which starts at 0 and has been incremented once per uid-less `EpubHtml`
added so far, i.e. once per registered chapter page item. -/
def ebooklib_html_id (book : EpubBook) : String :=
  "chapter_" ++ decRepr (book.items.countP fun i =>
    match i with
    | BookItem.html _ => true
    | _ => false)

/-- `add_markdown_file`: read the text, convert, resolve the title
(`chapter_title` argument unless it is `None` or empty — Python
`if not chapter_title:`), normalize the content, build the chapter and
append it to the book items (where `add_item` assigns its `.id`), the
chapter list and the spine.  Any failure (unreadable file, or the
`ValueError` `_extract_title` can raise) is caught by the `except` block,
which prints a diagnostic and returns `False` leaving the state
untouched. -/
def add_markdown_file (st : ConverterState) (chapterTitle : Option String)
    (inp : FileInput) : ConverterState × Bool :=
  match inp.readResult with
  | none => (st, false)
  | some md_content =>
    let titleRes : Except Unit String :=
      match chapterTitle with
      | some t => if t = "" then extract_title md_content inp.stem else .ok t
      | none => extract_title md_content inp.stem
    match titleRes with
    | .error _ => (st, false)
    | .ok chapter_title =>
      let chapter_id := "chapter_" ++ decRepr (st.chapters.length + 1)
      let chapter : Chapter :=
        { chapterId := chapter_id
          itemId := ebooklib_html_id st.book
          title := chapter_title
          fileName := chapter_id ++ ".xhtml"
          lang := st.book.language
          content := create_xhtml_content inp.htmlOut }
      ({ st with
          book := { st.book with items := st.book.items ++ [BookItem.html chapter] }
          chapters := st.chapters ++ [chapter]
          spine := st.spine ++ [SpineEntry.chapter chapter] }, true)

/-- Whether `add_markdown_file` (with no explicit title) succeeds on this
input; success depends only on the input, never on the book state. -/
def file_succeeds (inp : FileInput) : Bool :=
  match inp.readResult with
  | none => false
  | some c => (extract_title c inp.stem).isOk

/-- The chapter loop of `add_markdown_directory`: each discovered file is
added in order, with no explicit title. -/
def processFiles (st : ConverterState) : List FileInput → ConverterState
  | [] => st
  | inp :: rest => processFiles (add_markdown_file st none inp).1 rest

/-- `success_count` of `add_markdown_directory`: how many files were added
as chapters. -/
def success_count (inputs : List FileInput) : Nat :=
  (inputs.filter file_succeeds).length

/-! ### `add_custom_css` and `generate_epub` (component "PackageBuilder",
create-ebook.py:185-210, 411-451) -/

/-- `_get_default_css`. -/
def get_default_css : String :=
  "\n/* EPUB 默认样式 */\nbody \x7b\n    font-family: \"Times New Roman\", serif;\n    line-height: 1.6;\n    margin: 1em;\n    text-align: justify;\n\x7d\n\nh1, h2, h3, h4, h5, h6 \x7b\n    font-family: \"Arial\", sans-serif;\n    color: #333;\n    margin-top: 1.5em;\n    margin-bottom: 0.5em;\n\x7d\n\nh1 \x7b font-size: 2em; border-bottom: 2px solid #333; padding-bottom: 0.3em; \x7d\nh2 \x7b font-size: 1.5em; color: #666; \x7d\nh3 \x7b font-size: 1.3em; \x7d\n\np \x7b\n    margin: 1em 0;\n    text-indent: 2em;\n\x7d\n\nblockquote \x7b\n    margin: 1em 2em;\n    padding: 0.5em 1em;\n    border-left: 4px solid #ddd;\n    background-color: #f9f9f9;\n    font-style: italic;\n\x7d\n\ncode \x7b\n    font-family: \"Courier New\", monospace;\n    background-color: #f4f4f4;\n    padding: 0.2em 0.4em;\n    border-radius: 3px;\n    font-size: 0.9em;\n\x7d\n\npre \x7b\n    background-color: #f8f8f8;\n    border: 1px solid #ddd;\n    border-radius: 5px;\n    padding: 1em;\n    overflow-x: auto;\n    margin: 1em 0;\n\x7d\n\npre code \x7b\n    background-color: transparent;\n    padding: 0;\n\x7d\n\ntable \x7b\n    border-collapse: collapse;\n    width: 100%;\n    margin: 1em 0;\n\x7d\n\nth, td \x7b\n    border: 1px solid #ddd;\n    padding: 0.5em;\n    text-align: left;\n\x7d\n\nth \x7b\n    background-color: #f2f2f2;\n    font-weight: bold;\n\x7d\n\nul, ol \x7b\n    margin: 1em 0;\n    padding-left: 2em;\n\x7d\n\nli \x7b\n    margin: 0.5em 0;\n\x7d\n\na \x7b\n    color: #0066cc;\n    text-decoration: none;\n\x7d\n\na:hover \x7b\n    text-decoration: underline;\n\x7d\n\nimg \x7b\n    max-width: 100%;\n    height: auto;\n    display: block;\n    margin: 1em auto;\n\x7d\n\n/* 代码高亮样式 */\n.highlight \x7b\n    background-color: #f8f8f8;\n    border: 1px solid #ddd;\n    border-radius: 5px;\n    padding: 1em;\n    margin: 1em 0;\n\x7d\n"

/-- `add_custom_css`: register the stylesheet item (the built-in default
when none is supplied) on the book.  The loop that also links the item to
every chapter (`chapter.add_item(css_item)`) touches only
chapter-internal link lists no claim observes, and is not represented. -/
def add_custom_css (st : ConverterState) (css_content : Option String) :
    ConverterState × Bool :=
  let content := css_content.getD get_default_css
  let css_item := BookItem.css "style_default" "style/default.css" "text/css" content
  ({ st with book := { st.book with items := st.book.items ++ [css_item] } }, true)

/-- `generate_epub`: refuse an empty book; otherwise attach the default
stylesheet, build the flat table of contents — one
`(epub.Link(chapter.file_name, chapter.title, chapter.id), [])` pair per
chapter, where `chapter.id` is the library-assigned `itemId` — add the NCX
and navigation items, assign the spine, and hand the book to the external
writer (`epub.write_epub` and the `mkdir` of the output directory are the
package-writer capability; a writer exception would be caught and
reported, the state having already been updated). -/
def generate_epub (st : ConverterState) : ConverterState × Bool :=
  if st.chapters.isEmpty then (st, false)
  else
    let st1 := (add_custom_css st none).1
    let toc := st1.chapters.map fun c =>
      ({ href := c.fileName, title := c.title, uid := c.itemId }, ([] : List TocLink))
    ({ st1 with
        book := { st1.book with
          toc := toc
          items := st1.book.items ++ [BookItem.ncx, BookItem.navDoc]
          spineAttr := some st1.spine } }, true)

/-! ### Chapter-sequence invariants (claims about `add_markdown_file` runs) -/

/-- The shape invariant the chapter loop maintains: identifiers are
`chapter_1 … chapter_n` in insertion order, file names are derived from
them, the spine is the fixed `"nav"` marker followed by the chapters in
insertion order, the book carries one html item per chapter, and the
library-assigned item ids are `chapter_0 … chapter_(n-1)` — the epub
library's html counter being 0-based. -/
def ChapterInv (st : ConverterState) : Prop :=
  st.chapters.map Chapter.chapterId =
    (List.range st.chapters.length).map (fun i => "chapter_" ++ decRepr (i + 1)) ∧
  st.chapters.map Chapter.fileName =
    (List.range st.chapters.length).map
      (fun i => "chapter_" ++ decRepr (i + 1) ++ ".xhtml") ∧
  st.spine = SpineEntry.nav :: st.chapters.map SpineEntry.chapter ∧
  (st.book.items.countP fun i =>
      match i with
      | BookItem.html _ => true
      | _ => false) = st.chapters.length ∧
  st.chapters.map Chapter.itemId =
    (List.range st.chapters.length).map (fun i => "chapter_" ++ decRepr i)

theorem initState_inv (identifier title author language : String) :
    ChapterInv (initState identifier title author language) := by
  refine ⟨rfl, rfl, rfl, rfl, rfl⟩

theorem add_markdown_file_inv (st : ConverterState) (inp : FileInput)
    (h : ChapterInv st) :
    ChapterInv (add_markdown_file st none inp).1 ∧
    (add_markdown_file st none inp).1.chapters.length =
      st.chapters.length + (if file_succeeds inp then 1 else 0) := by
  obtain ⟨h1, h2, h3, h4, h5⟩ := h
  cases hr : inp.readResult with
  | none =>
    simp [ChapterInv, add_markdown_file, h1, h2, h3, h4, h5, file_succeeds, hr]
  | some c =>
    cases he : extract_title c inp.stem with
    | error e =>
      simp [ChapterInv, add_markdown_file, h1, h2, h3, h4, h5, file_succeeds,
        hr, he, Except.isOk, Except.toBool]
    | ok t =>
      refine ⟨⟨?_, ?_, ?_, ?_, ?_⟩, ?_⟩ <;>
        simp [ChapterInv, add_markdown_file, ebooklib_html_id, file_succeeds,
          hr, he, Except.isOk, Except.toBool, List.range_succ,
          List.countP_append, h1, h2, h3, h4, h5]

theorem processFiles_inv (inputs : List FileInput) :
    ∀ st : ConverterState, ChapterInv st →
      ChapterInv (processFiles st inputs) ∧
      (processFiles st inputs).chapters.length =
        st.chapters.length + success_count inputs := by
  induction inputs with
  | nil =>
    intro st h
    exact ⟨h, by simp [processFiles, success_count]⟩
  | cons inp rest ih =>
    intro st h
    have step := add_markdown_file_inv st inp h
    have tail := ih _ step.1
    refine ⟨tail.1, ?_⟩
    rw [processFiles, tail.2, step.2]
    by_cases hs : file_succeeds inp = true <;>
      · simp only [success_count, List.filter_cons, hs, if_true, if_false,
          Bool.false_eq_true, List.length_cons]
        omega

/-- C8.  In every run, the k-th successfully added chapter (1-based)
receives identifier `chapter_k` — gapless and monotonic in discovery
order — with its output file name `chapter_k.xhtml` derived from it; the
identifiers are pairwise distinct, and the chapter count equals the number
of successful files, a failed file contributing nothing. -/
theorem chapter_identifiers_sequential
    (identifier title author language : String) (inputs : List FileInput) :
    (processFiles (initState identifier title author language) inputs).chapters.length
        = success_count inputs ∧
    (processFiles (initState identifier title author language) inputs).chapters.map
        Chapter.chapterId
        = (List.range (success_count inputs)).map
            (fun i => "chapter_" ++ decRepr (i + 1)) ∧
    (processFiles (initState identifier title author language) inputs).chapters.map
        Chapter.fileName
        = (List.range (success_count inputs)).map
            (fun i => "chapter_" ++ decRepr (i + 1) ++ ".xhtml") ∧
    ((processFiles (initState identifier title author language) inputs).chapters.map
        Chapter.chapterId).Nodup := by
  have h := processFiles_inv inputs (initState identifier title author language)
    (initState_inv identifier title author language)
  have hlen : (processFiles (initState identifier title author language)
      inputs).chapters.length = success_count inputs := by
    rw [h.2]; simp [initState]
  obtain ⟨h1, h2, _, _, _⟩ := h.1
  rw [hlen] at h1 h2
  refine ⟨hlen, h1, h2, ?_⟩
  rw [h1]
  refine List.Nodup.map ?_ (List.nodup_range _)
  intro i j hij
  have := string_append_right_inj hij
  have := decRepr_inj this
  omega

/-- C10.  `add_markdown_file` is all-or-nothing: on failure the converter
state (chapter list, spine, and book with its item registry) is exactly
what it was, and on success exactly one new chapter is appended to the
chapter list, to the spine, and — as its page item — to the book's items,
the rest of the book unchanged. -/
theorem add_markdown_file_all_or_nothing (st : ConverterState)
    (chapterTitle : Option String) (inp : FileInput) :
    ((add_markdown_file st chapterTitle inp).2 = false →
        (add_markdown_file st chapterTitle inp).1 = st) ∧
    ((add_markdown_file st chapterTitle inp).2 = true →
        ∃ c : Chapter,
          (add_markdown_file st chapterTitle inp).1.chapters =
              st.chapters ++ [c] ∧
          (add_markdown_file st chapterTitle inp).1.spine =
              st.spine ++ [SpineEntry.chapter c] ∧
          (add_markdown_file st chapterTitle inp).1.book =
              { st.book with items := st.book.items ++ [BookItem.html c] }) := by
  cases hr : inp.readResult with
  | none => simp [add_markdown_file, hr]
  | some c =>
    cases ct : chapterTitle with
    | none =>
      cases he : extract_title c inp.stem with
      | error e => simp [add_markdown_file, hr, he]
      | ok t =>
        refine ⟨by simp [add_markdown_file, hr, he],
          fun _ => ⟨⟨"chapter_" ++ decRepr (st.chapters.length + 1),
            ebooklib_html_id st.book, t,
            "chapter_" ++ decRepr (st.chapters.length + 1) ++ ".xhtml",
            st.book.language, create_xhtml_content inp.htmlOut⟩, ?_, ?_, ?_⟩⟩ <;>
          simp [add_markdown_file, hr, he]
    | some t =>
      by_cases hts : t = ""
      · subst hts
        cases he : extract_title c inp.stem with
        | error e => simp [add_markdown_file, hr, he]
        | ok u =>
          refine ⟨by simp [add_markdown_file, hr, he],
            fun _ => ⟨⟨"chapter_" ++ decRepr (st.chapters.length + 1),
              ebooklib_html_id st.book, u,
              "chapter_" ++ decRepr (st.chapters.length + 1) ++ ".xhtml",
              st.book.language, create_xhtml_content inp.htmlOut⟩, ?_, ?_, ?_⟩⟩ <;>
            simp [add_markdown_file, hr, he]
      · refine ⟨by simp [add_markdown_file, hr, hts],
          fun _ => ⟨⟨"chapter_" ++ decRepr (st.chapters.length + 1),
            ebooklib_html_id st.book, t,
            "chapter_" ++ decRepr (st.chapters.length + 1) ++ ".xhtml",
            st.book.language, create_xhtml_content inp.htmlOut⟩, ?_, ?_, ?_⟩⟩ <;>
          simp [add_markdown_file, hr, hts]

/-- Witness for C10: a concrete unreadable file leaves a concrete state
untouched, and a concrete readable file appends exactly one chapter. -/
theorem add_markdown_file_all_or_nothing_witness :
    ((add_markdown_file (initState "id0" "Book" "A" "en") none
        ⟨"bad.md", "bad", none, []⟩).2 = false ∧
      (add_markdown_file (initState "id0" "Book" "A" "en") none
        ⟨"bad.md", "bad", none, []⟩).1 = initState "id0" "Book" "A" "en") ∧
    ((add_markdown_file (initState "id0" "Book" "A" "en") none
        ⟨"ok.md", "ok", some "# T\nbody", []⟩).2 = true ∧
      ∃ c : Chapter,
        (add_markdown_file (initState "id0" "Book" "A" "en") none
            ⟨"ok.md", "ok", some "# T\nbody", []⟩).1.chapters =
            (initState "id0" "Book" "A" "en").chapters ++ [c] ∧
        (add_markdown_file (initState "id0" "Book" "A" "en") none
            ⟨"ok.md", "ok", some "# T\nbody", []⟩).1.spine =
            (initState "id0" "Book" "A" "en").spine ++ [SpineEntry.chapter c] ∧
        (add_markdown_file (initState "id0" "Book" "A" "en") none
            ⟨"ok.md", "ok", some "# T\nbody", []⟩).1.book =
            { (initState "id0" "Book" "A" "en").book with
                items := (initState "id0" "Book" "A" "en").book.items ++
                  [BookItem.html c] }) :=
  ⟨⟨by decide,
    (add_markdown_file_all_or_nothing (initState "id0" "Book" "A" "en") none
      ⟨"bad.md", "bad", none, []⟩).1 (by decide)⟩,
   ⟨by decide,
    (add_markdown_file_all_or_nothing (initState "id0" "Book" "A" "en") none
      ⟨"ok.md", "ok", some "# T\nbody", []⟩).2 (by decide)⟩⟩

/-- C9 (amended).  At emission time with at least one chapter,
`generate_epub` succeeds, assigns the book a spine of exactly `n + 1`
entries — the fixed navigation entry first, then every chapter in
insertion order — and builds a flat table of contents with exactly one
entry per chapter in reading order, each pointing at that chapter's output
file and display title, with no nesting; the uid of each entry, however,
is `chapter.id` — the item id the epub library assigned when the chapter
was added (`chapter_0 … chapter_(n-1)`, 0-based) — **not** the chapter's
1-based identifier. -/
theorem generate_epub_spine_toc
    (identifier title author language : String) (inputs : List FileInput)
    (h : success_count inputs ≠ 0) :
    (generate_epub (processFiles (initState identifier title author language)
        inputs)).2 = true ∧
    (generate_epub (processFiles (initState identifier title author language)
        inputs)).1.book.spineAttr =
      some (SpineEntry.nav ::
        (processFiles (initState identifier title author language)
          inputs).chapters.map SpineEntry.chapter) ∧
    (∀ sp, (generate_epub (processFiles (initState identifier title author
        language) inputs)).1.book.spineAttr = some sp →
      sp.length = (processFiles (initState identifier title author language)
        inputs).chapters.length + 1) ∧
    (generate_epub (processFiles (initState identifier title author language)
        inputs)).1.book.toc =
      (processFiles (initState identifier title author language)
        inputs).chapters.map
        (fun c => ({ href := c.fileName, title := c.title, uid := c.itemId },
          ([] : List TocLink))) ∧
    (∀ e ∈ (generate_epub (processFiles (initState identifier title author
        language) inputs)).1.book.toc, e.2 = ([] : List TocLink)) ∧
    ((generate_epub (processFiles (initState identifier title author language)
        inputs)).1.book.toc.map (fun e => e.1.uid) =
      (List.range (processFiles (initState identifier title author language)
        inputs).chapters.length).map (fun i => "chapter_" ++ decRepr i)) := by
  have hinv := processFiles_inv inputs (initState identifier title author language)
    (initState_inv identifier title author language)
  have hlen : (processFiles (initState identifier title author language)
      inputs).chapters.length = success_count inputs := by
    rw [hinv.2]; simp [initState]
  have hne : (processFiles (initState identifier title author language)
      inputs).chapters.isEmpty = false := by
    rw [List.isEmpty_eq_false_iff_exists_mem]
    rcases List.exists_mem_of_length_pos (by omega : 0 <
      (processFiles (initState identifier title author language)
        inputs).chapters.length) with ⟨x, hx⟩
    exact ⟨x, hx⟩
  obtain ⟨_, _, hspine, _, hitem⟩ := hinv.1
  refine ⟨?_, ?_, ?_, ?_, ?_, ?_⟩
  · simp [generate_epub, hne]
  · simp [generate_epub, hne, add_custom_css, hspine]
  · intro sp hsp
    simp [generate_epub, hne, add_custom_css, hspine] at hsp
    simp [← hsp]
  · simp [generate_epub, hne, add_custom_css]
  · intro e he
    simp [generate_epub, hne, add_custom_css] at he
    rcases he with ⟨c, _, rfl⟩
    rfl
  · simp only [generate_epub, hne, Bool.false_eq_true, if_false, if_neg]
    rw [List.map_map]
    exact hitem

/-- Witness for C9: the spec's end-to-end example — two readable files,
`01-intro.md` then `02-body.md`. -/
theorem generate_epub_spine_toc_witness :
    (generate_epub (processFiles (initState "id0" "Book" "A" "en")
        [⟨"01-intro.md", "01-intro", some "# Intro\ntext", [HNode.elem "p" [HNode.text "text"]]⟩,
         ⟨"02-body.md", "02-body", some "# Body\nmore", [HNode.elem "p" [HNode.text "more"]]⟩])).2 = true ∧
    (generate_epub (processFiles (initState "id0" "Book" "A" "en")
        [⟨"01-intro.md", "01-intro", some "# Intro\ntext", [HNode.elem "p" [HNode.text "text"]]⟩,
         ⟨"02-body.md", "02-body", some "# Body\nmore", [HNode.elem "p" [HNode.text "more"]]⟩])).1.book.spineAttr =
      some (SpineEntry.nav ::
        (processFiles (initState "id0" "Book" "A" "en")
          [⟨"01-intro.md", "01-intro", some "# Intro\ntext", [HNode.elem "p" [HNode.text "text"]]⟩,
           ⟨"02-body.md", "02-body", some "# Body\nmore", [HNode.elem "p" [HNode.text "more"]]⟩]).chapters.map
          SpineEntry.chapter) :=
  ⟨(generate_epub_spine_toc "id0" "Book" "A" "en"
      [⟨"01-intro.md", "01-intro", some "# Intro\ntext", [HNode.elem "p" [HNode.text "text"]]⟩,
       ⟨"02-body.md", "02-body", some "# Body\nmore", [HNode.elem "p" [HNode.text "more"]]⟩]
      (by decide)).1,
   (generate_epub_spine_toc "id0" "Book" "A" "en"
      [⟨"01-intro.md", "01-intro", some "# Intro\ntext", [HNode.elem "p" [HNode.text "text"]]⟩,
       ⟨"02-body.md", "02-body", some "# Body\nmore", [HNode.elem "p" [HNode.text "more"]]⟩]
      (by decide)).2.1⟩

/-- Counterexample to C9 as stated: in the spec's two-chapter example the
table-of-contents entries do **not** point at the chapters' identifiers.
Each `epub.Link` receives `chapter.id` — the id the epub library assigned
when the uid-less chapter was added, `'chapter_%d'` with a 0-based
counter — so the uids are `chapter_0`, `chapter_1` while the chapters'
identifiers are `chapter_1`, `chapter_2`. -/
theorem generate_epub_toc_uid_counterexample :
    ((generate_epub (processFiles (initState "id0" "Book" "A" "en")
        [⟨"01-intro.md", "01-intro", some "# Intro\ntext", []⟩,
         ⟨"02-body.md", "02-body", some "# Body\nmore", []⟩])).1.book.toc.map
      (fun e => e.1.uid)) = ["chapter_0", "chapter_1"] ∧
    ((processFiles (initState "id0" "Book" "A" "en")
        [⟨"01-intro.md", "01-intro", some "# Intro\ntext", []⟩,
         ⟨"02-body.md", "02-body", some "# Body\nmore", []⟩]).chapters.map
      Chapter.chapterId) = ["chapter_1", "chapter_2"] := by
  have h := processFiles_inv
    [⟨"01-intro.md", "01-intro", some "# Intro\ntext", []⟩,
     ⟨"02-body.md", "02-body", some "# Body\nmore", []⟩]
    (initState "id0" "Book" "A" "en") (initState_inv "id0" "Book" "A" "en")
  have hlen : (processFiles (initState "id0" "Book" "A" "en")
      [⟨"01-intro.md", "01-intro", some "# Intro\ntext", []⟩,
       ⟨"02-body.md", "02-body", some "# Body\nmore", []⟩]).chapters.length = 2 := by
    rw [h.2]; decide
  have hne : (processFiles (initState "id0" "Book" "A" "en")
      [⟨"01-intro.md", "01-intro", some "# Intro\ntext", []⟩,
       ⟨"02-body.md", "02-body", some "# Body\nmore", []⟩]).chapters.isEmpty
      = false := by
    rw [List.isEmpty_eq_false_iff_exists_mem]
    rcases List.exists_mem_of_length_pos (by omega : 0 <
      (processFiles (initState "id0" "Book" "A" "en")
        [⟨"01-intro.md", "01-intro", some "# Intro\ntext", []⟩,
         ⟨"02-body.md", "02-body", some "# Body\nmore", []⟩]).chapters.length)
      with ⟨x, hx⟩
    exact ⟨x, hx⟩
  obtain ⟨hid, _, _, _, hitem⟩ := h.1
  rw [hlen] at hid hitem
  have d0 : decRepr 0 = "0" := by rw [decRepr.eq_1, decDigits]; decide
  have d1 : decRepr 1 = "1" := by rw [decRepr.eq_1, decDigits]; decide
  have d2 : decRepr 2 = "2" := by rw [decRepr.eq_1, decDigits]; decide
  have hitem2 : (processFiles (initState "id0" "Book" "A" "en")
      [⟨"01-intro.md", "01-intro", some "# Intro\ntext", []⟩,
       ⟨"02-body.md", "02-body", some "# Body\nmore", []⟩]).chapters.map
      Chapter.itemId = ["chapter_0", "chapter_1"] := by
    rw [hitem, show (2 : Nat) = 1 + 1 from rfl, List.range_succ,
      List.range_succ, List.range_zero]
    simp only [List.nil_append, List.map_append, List.map_cons, List.map_nil,
      d0, d1]
    decide
  constructor
  · simp only [generate_epub, hne, Bool.false_eq_true, if_false, if_neg]
    rw [List.map_map]
    exact hitem2
  · rw [hid]
    rw [show (2 : Nat) = 1 + 1 from rfl, List.range_succ, List.range_succ,
      List.range_zero]
    simp only [List.nil_append, List.map_append, List.map_cons, List.map_nil,
      d1, d2]
    decide

/-! ### `find_images_glob` / `add_image_file` / `image_media_type`
(component "ImageBundler", create-ebook.py:101-145, 212-222) -/

/-- Ascending order on path strings, as Python's `sorted` produces it:
`a` may precede `b` exactly when `b` is not strictly smaller. -/
def pathLe (a b : String) : Prop := lexLt b.data a.data = false

instance : DecidableRel pathLe := fun a b =>
  inferInstanceAs (Decidable (lexLt b.data a.data = false))

instance : IsTotal String pathLe where
  total a b := by
    by_cases h : lexLt b.data a.data = true
    · exact Or.inr (lexLt_asymm h)
    · exact Or.inl (Bool.eq_false_iff.mpr h)

instance : IsTrans String pathLe where
  trans a b c hab hbc := by
    unfold pathLe at *
    by_contra hca
    rw [Bool.not_eq_false] at hca
    by_cases hbc2 : lexLt b.data c.data = true
    · rw [lexLt_trans hbc2 hca] at hab
      exact Bool.true_eq_false.mp hab
    · have heq : c.data = b.data :=
        lexLt_eq_of_not hbc (Bool.eq_false_iff.mpr hbc2)
      rw [heq] at hca
      rw [hca] at hab
      exact Bool.true_eq_false.mp hab

/-- Python `sorted(set(xs))` for strings: the distinct elements in
ascending code-point order (on a duplicate-free list every comparison sort
returns exactly this sequence). -/
def pySortedSet (xs : List String) : List String :=
  xs.dedup.insertionSort pathLe

/-- The sixteen glob patterns of `find_images_glob`, verbatim. -/
def image_patterns : List String :=
  ["**/*.jpg", "**/*.jpeg", "**/*.png", "**/*.gif",
   "**/*.bmp", "**/*.tiff", "**/*.webp", "**/*.svg",
   "**/*.JPG", "**/*.JPEG", "**/*.PNG", "**/*.GIF",
   "**/*.BMP", "**/*.TIFF", "**/*.WEBP", "**/*.SVG"]

/-- Whether `directory.glob(pattern)` matches the file with root-relative
path `rel`, for patterns of the shape `**/*.<ext>` used here: `**/`
crosses any directory prefix (including none) and `*.<ext>` requires the
final component to end in the literal `.<ext>` — POSIX globbing is
case-sensitive. -/
def globMatches (pattern rel : String) : Bool :=
  (pattern.data.drop 4).isSuffixOf (basenameList rel.data)

/-- `find_images_glob`: extend the match list pattern by pattern over the
tree's files (given by their root-relative paths), then
`sorted(set(image_files))`. -/
def find_images_glob (files : List String) : List String :=
  pySortedSet (image_patterns.foldl
    (fun acc p => acc ++ files.filter (fun f => globMatches p f)) [])

/-- `image_media_type`: lower-cased extension → MIME type; an unknown
extension prints a warning but still yields `image/png`. -/
def image_media_type (image_path : String) : String :=
  let ext := pyLower (pySuffix image_path)
  if ext = ".jpg" ∨ ext = ".jpeg" then "image/jpeg"
  else if ext = ".png" then "image/png"
  else if ext = ".gif" then "image/gif"
  else "image/png"

/-- `add_image_file`: read the bytes (`none` models the caught read
failure: reported, skipped), then register an `EpubImage` with uid
`img_path.name`, file name `str(img_path)[len(parent_path)+1:]` and the
classified media type. -/
def add_image_file (st : ConverterState) (img_path parent_path : String)
    (bytes : Option (List Nat)) : ConverterState × Bool :=
  match bytes with
  | none => (st, false)
  | some image_content =>
    let prefix_len := parent_path.length + 1
    let img := BookItem.image (pyName img_path) (pySliceFrom img_path prefix_len)
      (image_media_type img_path) image_content
    ({ st with book := { st.book with items := st.book.items ++ [img] } }, true)

theorem mem_foldl_filter (files : List String) (x : String) :
    ∀ (pats : List String) (acc : List String),
      x ∈ pats.foldl (fun acc p => acc ++ files.filter (fun f => globMatches p f)) acc ↔
        x ∈ acc ∨ ∃ p ∈ pats, globMatches p x = true ∧ x ∈ files := by
  intro pats
  induction pats with
  | nil => intro acc; simp
  | cons p ps ih =>
    intro acc
    rw [List.foldl_cons, ih]
    simp only [List.mem_append, List.mem_filter, List.mem_cons]
    constructor
    · rintro ((hx | ⟨hf, hm⟩) | ⟨q, hq, hm, hf⟩)
      · exact Or.inl hx
      · exact Or.inr ⟨p, Or.inl rfl, hm, hf⟩
      · exact Or.inr ⟨q, Or.inr hq, hm, hf⟩
    · rintro (hx | ⟨q, hq | hq, hm, hf⟩)
      · exact Or.inl (Or.inl hx)
      · exact Or.inl (Or.inr ⟨hf, hq ▸ hm⟩)
      · exact Or.inr ⟨q, hq, hm, hf⟩

/-- C7 (amended).  `find_images_glob` discovers exactly the files whose
final component ends in one of the sixteen literal suffixes — the eight
all-lowercase and the eight all-uppercase ones, mixed case such as `.Png`
matching none — deduplicates them and returns them sorted by path; and
`add_image_file` registers a discovered file under the relative path
obtained by stripping the root prefix together with its separator, with
media type `image/jpeg` for a `.jpg`/`.jpeg` extension. -/
theorem find_images_glob_spec :
    (∀ files f, f ∈ find_images_glob files ↔
        f ∈ files ∧ ∃ p ∈ image_patterns, globMatches p f = true) ∧
    (∀ files, List.Pairwise pathLe (find_images_glob files)) ∧
    (∀ files, (find_images_glob files).Nodup) ∧
    (∀ p ∈ image_patterns, globMatches p "a.Png" = false) ∧
    (∀ st parent rel bytes,
        (add_image_file st (parent ++ "/" ++ rel) parent (some bytes)).1.book.items
            = st.book.items ++
              [BookItem.image (pyName (parent ++ "/" ++ rel)) rel
                (image_media_type (parent ++ "/" ++ rel)) bytes] ∧
        (add_image_file st (parent ++ "/" ++ rel) parent (some bytes)).2 = true) ∧
    (∀ p, pyLower (pySuffix p) = ".jpg" ∨ pyLower (pySuffix p) = ".jpeg" →
        image_media_type p = "image/jpeg") := by
  have hslice : ∀ parent rel : String,
      pySliceFrom (parent ++ "/" ++ rel) (parent.length + 1) = rel := by
    intro parent rel
    have hdata : ((parent ++ "/") ++ rel).data = (parent.data ++ ['/']) ++ rel.data := by
      simp [String.data_append]
    have hl : parent.length + 1 = (parent.data ++ ['/']).length := by
      rw [List.length_append]
      rfl
    rw [pySliceFrom, hdata, hl, List.drop_left]
  refine ⟨?_, ?_, ?_, ?_, ?_, ?_⟩
  · intro files f
    unfold find_images_glob pySortedSet
    rw [(List.perm_insertionSort pathLe _).mem_iff, List.mem_dedup,
      mem_foldl_filter]
    simp only [List.not_mem_nil, false_or]
    constructor
    · rintro ⟨p, hp, hm, hf⟩
      exact ⟨hf, p, hp, hm⟩
    · rintro ⟨hf, p, hp, hm⟩
      exact ⟨p, hp, hm, hf⟩
  · intro files
    exact List.sorted_insertionSort pathLe _
  · intro files
    exact ((List.perm_insertionSort pathLe _).nodup_iff).mpr (List.nodup_dedup _)
  · intro p hp
    fin_cases hp <;> decide
  · intro st parent rel bytes
    constructor
    · simp only [add_image_file]
      rw [hslice parent rel]
    · rfl
  · intro p h
    unfold image_media_type
    rcases h with h | h <;> simp [h]

/-- Witness for C7 (amended): a `.jpg` file under a subdirectory gets
media type `image/jpeg`, and the lowercase `png` pattern rejects `a.Png`. -/
theorem find_images_glob_spec_witness :
    image_media_type "sub/b.jpg" = "image/jpeg" ∧
    globMatches "**/*.png" "a.Png" = false :=
  ⟨find_images_glob_spec.2.2.2.2.2 "sub/b.jpg" (Or.inl (by decide)),
   find_images_glob_spec.2.2.2.1 "**/*.png" (by decide)⟩

/-- Counterexample to C7 as stated: the mixed-case `a.Png` — an image
extension "in some letter case" — is matched by none of the sixteen
case-sensitive patterns and is not discovered, while `a.PNG`, `a.png` and
`sub/b.jpg` are, deduplicated and in sorted order. -/
theorem find_images_glob_mixed_case_counterexample :
    find_images_glob ["a.Png", "a.PNG", "a.png", "sub/b.jpg", "a.png"] =
      ["a.PNG", "a.png", "sub/b.jpg"] := by
  decide

/-! ### `add_cover_image` (component "Cover attachment",
create-ebook.py:224-246) -/

/-- The binding of the name `ext` at the point the f-string `f"cover{ext}"`
is evaluated (create-ebook.py:240): **no assignment to `ext` exists
anywhere in the program**, so the name lookup fails (`none`) and Python
raises `NameError`. -/
def cover_ext_binding : Option String := none

/-- `add_cover_image`: a missing file is reported and nothing happens
(`False`).  For an existing file the bytes are read and the media type
classified; building the cover file name then evaluates the undefined name
`ext`, and the resulting `NameError` is caught by the `except Exception`
block, which prints a failure and returns `False` — `set_cover` is never
reached.  `exists_` and `cover_content` are the outcomes of the external
`Path.exists` and `open(...).read()` calls. -/
def add_cover_image (st : ConverterState) (image_path : String)
    (exists_ : Bool) (cover_content : List Nat) : ConverterState × Bool :=
  if exists_ = false then (st, false)
  else
    let _media_type := image_media_type image_path
    match cover_ext_binding with
    | none => (st, false)  -- NameError: name 'ext' is not defined
    | some ext =>
      ({ st with book := { st.book with
          cover := some ("cover" ++ ext, cover_content) } }, true)

/-- C1 (the code at the claim's inputs).  The missing-path half of the
claim holds — report and no-op returning `False` — but for every
*existing, readable* cover file `add_cover_image` also returns `False`
and leaves the converter state untouched, never setting the cover: the
f-string that builds the cover file name references the undefined name
`ext`. -/
theorem add_cover_image_never_sets_cover (st : ConverterState)
    (image_path : String) (cover_content : List Nat) :
    add_cover_image st image_path false cover_content = (st, false) ∧
    add_cover_image st image_path true cover_content = (st, false) :=
  ⟨rfl, rfl⟩

/-! ### `main` (CLI surface, create-ebook.py:454-469) -/

/-- The argument handling of `main`: `argv` is `sys.argv` (element 0 is
the program name).  The guard tests `len(sys.argv) < 1` — which no Python
process ever satisfies — so the code always evaluates `sys.argv[1]`;
`Except.error ()` models the `IndexError` that escapes `main` (no `try`
encloses it) when no positional argument is present. -/
def main_markdown_dir (argv : List String) : Except Unit String :=
  if argv.length < 1 then Except.ok "./"
  else
    match argv[1]? with
    | some d => Except.ok d
    | none => Except.error ()

/-- `title = markdown_dir.split("/")[-1]` and
`output_file = f"./output/{title}.epub"`, for a `markdown_dir` already
normalized by `str(Path(markdown_dir))`. -/
def main_output_file (markdown_dir : String) : String :=
  let title : String := ⟨(pySplitChar '/' markdown_dir.data).getLastD []⟩
  "./output/" ++ title ++ ".epub"

/-- C3 (the code at the claim's inputs).  With no positional argument
(`sys.argv = ["create-ebook.py"]`) `main` does not fall back to the
current directory: the dead guard `len(sys.argv) < 1` routes it to
`sys.argv[1]`, which raises `IndexError` and crashes the run.  With an
argument the source directory is taken from it and the output path is
derived as `./output/<directory-basename>.epub`. -/
theorem main_missing_argument_crashes :
    main_markdown_dir ["create-ebook.py"] = Except.error () ∧
    main_markdown_dir ["create-ebook.py", "books/sub"] = Except.ok "books/sub" ∧
    main_output_file "books/sub" = "./output/sub.epub" :=
  ⟨rfl, rfl, rfl⟩

end CreateEbook

